import Mathlib

/-!
Verification development for the `bugbounty_tools` repository
(`thc_livecheck.py` and `thc_recon.py`).

The Python sources are shallowly embedded: pure helpers become Lean
functions on `String` / `List Char`, the stateful worker loop of
`thc_livecheck.py` becomes an explicit event-trace generator, and the
paginated-API response parser of `thc_recon.py` becomes a fold over the
lines of the response text.  All definitions are executable.

Strings are modelled at the level of ASCII character lists; Python
`str` operations (`strip`, `split`, `find`, `lower`, `replace`,
`splitlines`, `int(...)`) are re-implemented with their CPython
semantics on the ASCII fragment that the tools manipulate.
-/

/-! ## Python string primitives -/

/-- The whitespace characters removed by Python `str.strip()` (ASCII fragment):
space, tab, newline, carriage return, vertical tab, form feed. -/
def isPySpace (c : Char) : Bool :=
  c = ' ' || c = '\t' || c = '\n' || c = '\r' || c = Char.ofNat 11 || c = Char.ofNat 12

/-- Python `str.strip()` on a character list: drop whitespace from both ends. -/
def pyStripList (l : List Char) : List Char :=
  ((l.dropWhile isPySpace).reverse.dropWhile isPySpace).reverse

/-- Python `str.strip()` on a `String`. -/
def pyStrip (s : String) : String :=
  String.mk (pyStripList s.data)

/-- Python `str.lower()` on one character (ASCII fragment). -/
def lowerAscii (c : Char) : Char :=
  if 'A' ≤ c ∧ c ≤ 'Z' then Char.ofNat (c.toNat + 32) else c

/-- Python single-character `str.replace(a, b)`: replace every occurrence of
the character `a` by `b`. -/
def pyReplace (a b : Char) (l : List Char) : List Char :=
  l.map (fun c => if c = a then b else c)

/-- Numeric value of a list of decimal digits (most significant first). -/
def digitsToNat (l : List Char) : Nat :=
  l.foldl (fun a c => 10 * a + (c.toNat - 48)) 0

/-- After an initial digit, Python `int()` accepts further digits with single
underscores allowed between digits (`1_0` parses, `1__0`, `1_`, `_1` do not). -/
def pyDigitsAux : Nat → List Char → Option Nat
  | acc, [] => some acc
  | acc, '_' :: c :: cs =>
      if c.isDigit then pyDigitsAux (10 * acc + (c.toNat - 48)) cs else none
  | acc, c :: cs =>
      if c.isDigit then pyDigitsAux (10 * acc + (c.toNat - 48)) cs else none

/-- A nonempty underscore-grouped digit string, as accepted by Python `int()`
after the optional sign. -/
def pyDigits : List Char → Option Nat
  | [] => none
  | c :: cs => if c.isDigit then pyDigitsAux (c.toNat - 48) cs else none

/-- Python `int(s)` after whitespace stripping: optional sign followed by a
digit string. -/
def pyIntCore : List Char → Option Int
  | '+' :: rest => (pyDigits rest).map Int.ofNat
  | '-' :: rest => (pyDigits rest).map (fun n => -(Int.ofNat n))
  | rest => (pyDigits rest).map Int.ofNat

/-- Python `int(s)` on a string (ASCII fragment): `none` models a raised
`ValueError`. -/
def pyInt? (s : String) : Option Int :=
  pyIntCore (pyStripList s.data)

/-- Python `str.split(sep)` for a one-character separator: splits at every
occurrence, keeping empty fields (`"a..b".split "."` has an empty middle
field, `"".split "."` is `[""]`). -/
def pySplitOn (sep : Char) : List Char → List (List Char)
  | [] => [[]]
  | c :: rest =>
      if c = sep then [] :: pySplitOn sep rest
      else
        match pySplitOn sep rest with
        | [] => [[c]]
        | h :: t => (c :: h) :: t

/-- Python `str.split()` with no argument: split on whitespace runs, dropping
empty fields.  Implemented as a right fold. -/
def pySplitWs (l : List Char) : List (List Char) :=
  let step : Char → List Char × List (List Char) → List Char × List (List Char) :=
    fun c (acc : List Char × List (List Char)) =>
      if isPySpace c then ([], if acc.1.isEmpty then acc.2 else acc.1 :: acc.2)
      else (c :: acc.1, acc.2)
  let r := l.foldr step ([], [])
  if r.1.isEmpty then r.2 else r.1 :: r.2

/-- Model of `list(map(int, parts))` over string fields: `none` if any field fails to
parse (Python raises at the first failing field; the observable effect in the
embedding is the same). -/
def mapIntAll : List (List Char) → Option (List Int)
  | [] => some []
  | p :: ps =>
      match pyIntCore (pyStripList p), mapIntAll ps with
      | some n, some ns => some (n :: ns)
      | _, _ => none

/-! ## `thc_livecheck.py`: the private-IP classifier (source lines 55-66) -/

/-- Function `is_private_ip` from `thc_livecheck.py`: split the input on dots, parse
every field with `int`, then test the leading octets.  Any exception
(`ValueError` from `int`, `IndexError` from `octets[1]`) is swallowed by the
bare `except` and the function returns `False`. -/
def is_private_ip (ip : String) : Bool :=
  match mapIntAll (pySplitOn '.' ip.data) with
  | none => false
  | some octets =>
    match octets with
    | [] => false
    | o0 :: rest =>
      if o0 = 10 then true
      else if o0 = 172 then
        match rest with
        | [] => false          -- `octets[1]` raises IndexError, caught: False
        | o1 :: _ => decide (16 ≤ o1 ∧ o1 ≤ 31)
      else if o0 = 192 then
        match rest with
        | [] => false          -- `octets[1]` raises IndexError, caught: False
        | o1 :: _ => decide (o1 = 168)
      else false

/-- A field of a well-formed dotted-quad address: nonempty, all decimal
digits, value at most 255.  Written from the claim, not from the source. -/
def decimalOctet? (p : List Char) : Option Nat :=
  if p ≠ [] ∧ p.all Char.isDigit then
    let n := digitsToNat p
    if n ≤ 255 then some n else none
  else none

/-- The classifier the claim describes: true iff the input is a well-formed
dotted-quad IPv4 address (exactly four in-range numeric octets) in
`10.0.0.0/8`, `172.16.0.0/12` or `192.168.0.0/16`.  Written from the claim,
not from the source. -/
def isPrivateIpClaim (s : String) : Bool :=
  match (pySplitOn '.' s.data).mapM decimalOctet? with
  | some [a, b, _, _] =>
      a = 10 || (a = 172 && (16 ≤ b && b ≤ 31)) || (a = 192 && b = 168)
  | _ => false

/-! ## `thc_livecheck.py`: title extraction (source lines 140-147) -/

/-- Whether `needle` occurs in `hay` at index `i`. -/
def occursAt (needle hay : List Char) (i : Nat) : Bool :=
  needle.isPrefixOf (hay.drop i)

/-- Index of the first occurrence of `needle` in `hay` at or after `start`,
if any. -/
def firstOccurFrom (hay needle : List Char) (start : Nat) : Option Nat :=
  (List.range (hay.length + 1)).find? (fun i => decide (start ≤ i) && occursAt needle hay i)

/-- Python `str.find(needle, start)`: the lowest index at or after `start`
where `needle` occurs, and `-1` when there is none. -/
def pyFind (hay needle : List Char) (start : Nat) : Int :=
  match firstOccurFrom hay needle start with
  | some i => (i : Int)
  | none => -1

/-- Python slice `l[a:b]` (for `0 ≤ a, b`): empty when `b ≤ a`. -/
def listSlice (l : List Char) (a b : Nat) : List Char :=
  (l.drop a).take (b - a)

/-- The title post-processing of source line 147:
`.strip().replace("\n", " ").replace("\r", " ")`. -/
def titleClean (l : List Char) : List Char :=
  pyReplace '\r' ' ' (pyReplace '\n' ' ' (pyStripList l))

/-- Title extraction from `thc_livecheck.py` lines 140-147, applied to the
response body.  Notably, when `"<title"` occurs but no `">"` follows it,
`r.text.find(">", start)` returns `-1` and the code continues with
`start = -1 + 1 = 0`, so the `"</title>"` search restarts at the beginning
of the body. -/
def extractTitle (text : String) : String :=
  let t := text.data
  let lower := t.map lowerAscii
  if pyFind lower ("<title".data) 0 ≠ -1 then      -- `"<title" in r.text.lower()`
    let start := pyFind lower ("<title".data) 0    -- `r.text.lower().find("<title")`
    if start ≠ -1 then
      let start2 := pyFind t (">".data) start.toNat + 1
      let stop := pyFind t ("</title>".data) start2.toNat
      if stop ≠ -1 then
        String.mk (titleClean (listSlice t start2.toNat stop.toNat))
      else "No title"
    else "No title"
  else "No title"

/-- The claim's post-processing order: newlines and carriage returns replaced
by spaces, then leading/trailing whitespace trimmed.  Written from the
claim, not from the source. -/
def titleCleanClaim (l : List Char) : List Char :=
  pyStripList (pyReplace '\r' ' ' (pyReplace '\n' ' ' l))

/-- The extraction algorithm the claim describes: find the first
case-insensitive `"<title"`; from there the next `">"`; from there the next
literal `"</title>"`; the cleaned text between is the title, and if any of
the forward searches fails the title is `"No title"`.  Written from the
claim, not from the source. -/
def extractTitleClaim (text : String) : String :=
  let t := text.data
  let lower := t.map lowerAscii
  match firstOccurFrom lower ("<title".data) 0 with
  | none => "No title"
  | some i =>
    match firstOccurFrom t (">".data) i with
    | none => "No title"
    | some k =>
      match firstOccurFrom t ("</title>".data) (k + 1) with
      | none => "No title"
      | some e => String.mk (titleCleanClaim (listSlice t (k + 1) e))

/-- The amended extraction algorithm: as the claim, except that when
`"<title"` occurs but no `">"` follows it, the scan position falls back to
the start of the body, so the `"</title>"` search covers the whole body and
the extracted text starts at index `0`. -/
def extractTitleAmended (text : String) : String :=
  let t := text.data
  let lower := t.map lowerAscii
  match firstOccurFrom lower ("<title".data) 0 with
  | none => "No title"
  | some i =>
    match firstOccurFrom t (">".data) i with
    | none =>
      match firstOccurFrom t ("</title>".data) 0 with
      | none => "No title"
      | some e => String.mk (titleCleanClaim (listSlice t 0 e))
    | some k =>
      match firstOccurFrom t ("</title>".data) (k + 1) with
      | none => "No title"
      | some e => String.mk (titleCleanClaim (listSlice t (k + 1) e))

/-! ## `thc_livecheck.py`: server fingerprint (source lines 134-138) -/

/-- The fingerprint computation of `thc_livecheck.py` lines 134-138.  The
headers are modelled as optional values (`none` = header absent from the
response); `r.headers.get` collapses an absent header and a present-but-empty
header to the same empty string, and `if powered_by:` tests truthiness. -/
def fingerprint (server? poweredBy? : Option String) : String :=
  let server := server?.getD "Unknown"
  let powered_by := poweredBy?.getD ""
  if powered_by ≠ "" then server ++ " (" ++ powered_by ++ ")" else server

/-- The fingerprint the claim describes: `" (value)"` appended whenever an
`X-Powered-By` header is present.  Written from the claim, not from the
source. -/
def fingerprintClaim (server? poweredBy? : Option String) : String :=
  let server := server?.getD "Unknown"
  match poweredBy? with
  | some v => server ++ " (" ++ v ++ ")"
  | none => server

/-- The amended fingerprint: `" (value)"` appended exactly when an
`X-Powered-By` header is present with a nonempty value. -/
def fingerprintAmended (server? poweredBy? : Option String) : String :=
  let server := server?.getD "Unknown"
  match poweredBy? with
  | some v => if v = "" then server else server ++ " (" ++ v ++ ")"
  | none => server

/-! ## `thc_livecheck.py`: the worker pipeline (source lines 87-161)

The worker's processing of one host is embedded as a generator of the list
of observable events it performs, in program order.  Each event is paired
with the critical section in which it happens: `none` means the event is
performed without holding `status_lock`; `some k` identifies one
lock-acquisition block (`with status_lock:`) — events share a `k` exactly
when the source performs them inside the same acquisition.  Section `0` is
the acquisition around the internal-list append (lines 101-102), section `1`
the one around the counter updates (lines 116-120), and section `2 + p` the
one inside `take_screenshot` for port `p` (lines 81-83).

The trace models executions in which the cancellation flag is never set
(every claim about the pipeline conditions on a non-interrupted run), and
in which `task_queue.task_done()` bookkeeping is irrelevant. -/

/-- The fixed probe list, source line 50. -/
def WEB_PORTS : List Nat := [80, 443, 8080, 8443, 8000, 3000, 8081, 8444]

/-- The observable outcome of one successful `requests.get`: the two headers
the worker reads (absent = `none`) and the body text. -/
structure FetchData where
  server? : Option String
  poweredBy? : Option String
  body : String

/-- The external world one worker run interacts with: DNS resolution
(`none` = `socket.gaierror`), per-port TCP connect outcome, HTTP fetch
outcome (`none` = `requests.get` raised), and screenshot navigation
outcome. -/
structure WorkerEnv where
  resolve : String → Option String
  isOpen : String → Nat → Bool
  fetch : String → Nat → Option FetchData
  captureOk : String → Nat → Bool

/-- One observable step of the worker.  The `Append`/`Incr` events are the
mutations of the shared aggregate state; `probe` and the two attempt events
record control flow. -/
inductive Event where
  | internalAppend (line : String)
  | probe (port : Nat) (isOpen : Bool)
  | scannedIncr
  | foundIncr
  | liveAppend (line : String)
  | fetchAttempt (port : Nat) (ok : Bool)
  | titleAppend (line : String)
  | fingerprintAppend (line : String)
  | screenshotAttempt (port : Nat)
  | screenshotIncr
deriving DecidableEq, Repr

/-- An event paired with the critical section in which it happens (`none` =
lock not held). -/
abbrev LEvent := Event × Option Nat

/-- Does an event mutate one of the seven shared `AggregateState` fields
(live-host lines, internal-host lines, title lines, fingerprint lines,
scanned counter, found counter, screenshot counter)? -/
def isAggMutation : Event → Bool
  | .internalAppend _ => true
  | .liveAppend _ => true
  | .titleAppend _ => true
  | .fingerprintAppend _ => true
  | .scannedIncr => true
  | .foundIncr => true
  | .screenshotIncr => true
  | _ => false

/-- Function `take_screenshot` (source lines 68-85): skipped entirely when the
cancellation flag is set; otherwise the capture is attempted, and on success
the screenshot counter is incremented inside its own `with status_lock:`
block. -/
def take_screenshot (interrupted : Bool) (port : Nat) (ok : Bool) : List LEvent :=
  if interrupted then []
  else
    (Event.screenshotAttempt port, none) ::
      (if ok then [(Event.screenshotIncr, some (2 + port))] else [])

/-- The body of the `try:` around one open port (source lines 130-159):
attempt the fetch; if it raises, the whole iteration is abandoned by the
bare `except`; if it succeeds, conditionally append the title line and the
fingerprint line (both without the lock) and, when screenshots were
requested, call `take_screenshot`. -/
def fetchPhase (env : WorkerEnv) (titlesOn fpOn screenshotsOn : Bool)
    (host : String) (port : Nat) : List LEvent :=
  match env.fetch host port with
  | none => [(Event.fetchAttempt port false, none)]
  | some fd =>
    let server_str := fingerprint fd.server? fd.poweredBy?
    let title := extractTitle fd.body
    (Event.fetchAttempt port true, none) ::
      ((if titlesOn then
          [(Event.titleAppend
              (host ++ " Port: " ++ toString port ++ " Root Page Title: " ++ title), none)]
        else []) ++
       (if fpOn then
          [(Event.fingerprintAppend
              (host ++ " Port: " ++ toString port ++ " Server: " ++ server_str), none)]
        else []) ++
       (if screenshotsOn then take_screenshot false port (env.captureOk host port) else []))

/-- The ports appended to `open_ports` by the probe loop, in probe order
(source lines 104-112). -/
def rawOpenPorts (env : WorkerEnv) (host : String) : List Nat :=
  WEB_PORTS.filter (env.isOpen host)

/-- The list `open_ports` after the in-place ascending `open_ports.sort()` of source
line 123. -/
def openPortsOf (env : WorkerEnv) (host : String) : List Nat :=
  List.insertionSort (· ≤ ·) (rawOpenPorts env host)

/-- The worker's processing of one host pulled from the queue (source lines
96-161), as an event trace.  A resolution failure jumps to the bare
`except (socket.gaierror, OSError)` handler, skipping both the classifier
and the probe loop, so only the counter update runs with `open_ports`
empty. -/
def processHost (env : WorkerEnv) (titlesOn fpOn screenshotsOn : Bool)
    (host : String) : List LEvent :=
  match env.resolve host with
  | none => [(Event.scannedIncr, some 1)]
  | some ip =>
    (if is_private_ip ip then [(Event.internalAppend (host ++ " → " ++ ip), some 0)] else []) ++
    (WEB_PORTS.map fun p => (Event.probe p (env.isOpen host p), none)) ++
    ((Event.scannedIncr, some 1) ::
      (if rawOpenPorts env host ≠ [] then [(Event.foundIncr, some 1)] else [])) ++
    (if rawOpenPorts env host ≠ [] then
      (Event.liveAppend
        (host ++ " web servers: " ++
          String.intercalate ", " ((openPortsOf env host).map toString)), none) ::
        ((openPortsOf env host).map (fetchPhase env titlesOn fpOn screenshotsOn host)).flatten
     else [])

/-- A full non-interrupted run over a list of submitted targets: since every
queue item is pulled by exactly one worker and every shared-state mutation
is a single increment or append, the aggregate effect of a run is the
multiset of per-host events; it is modelled as their concatenation. -/
def runTrace (env : WorkerEnv) (titlesOn fpOn screenshotsOn : Bool)
    (hosts : List String) : List LEvent :=
  (hosts.map (processHost env titlesOn fpOn screenshotsOn)).flatten

/-! ### Trace observations -/

/-- Number of increments of the scanned counter in a trace. -/
def scannedCount (t : List LEvent) : Nat :=
  t.countP (fun e => decide (e.1 = Event.scannedIncr))

/-- Number of increments of the found counter in a trace. -/
def foundCount (t : List LEvent) : Nat :=
  t.countP (fun e => decide (e.1 = Event.foundIncr))

/-- Number of increments of the screenshot counter in a trace. -/
def screenshotIncrCount (t : List LEvent) : Nat :=
  t.countP (fun e => decide (e.1 = Event.screenshotIncr))

/-- The ports probed by a trace, in order. -/
def probeSeq (t : List LEvent) : List Nat :=
  t.filterMap (fun e => match e.1 with | .probe p _ => some p | _ => none)

/-- The ports for which a screenshot capture is attempted, in order. -/
def screenshotAttemptsOf (t : List LEvent) : List Nat :=
  t.filterMap (fun e => match e.1 with | .screenshotAttempt p => some p | _ => none)

/-- The lines appended to the live-hosts collection. -/
def liveLines (t : List LEvent) : List String :=
  t.filterMap (fun e => match e.1 with | .liveAppend s => some s | _ => none)

/-- The lines appended to the titles collection. -/
def titleLines (t : List LEvent) : List String :=
  t.filterMap (fun e => match e.1 with | .titleAppend s => some s | _ => none)

/-- The lines appended to the fingerprints collection. -/
def fingerprintLines (t : List LEvent) : List String :=
  t.filterMap (fun e => match e.1 with | .fingerprintAppend s => some s | _ => none)

/-- The critical-section tags of the aggregate-state mutations of a trace,
in order. -/
def aggLockTags (t : List LEvent) : List (Option Nat) :=
  (t.filter (fun e => isAggMutation e.1)).map Prod.snd

/-- The lock discipline the source actually follows, event by event: the
internal-list append happens in its own lock acquisition (section `0`), the
scanned/found updates share one acquisition (section `1`), each
screenshot-counter increment happens in its own acquisition inside
`take_screenshot` (section `2 + port`), and the live, title and fingerprint
appends — like the pure control-flow events — happen with no lock held. -/
def lockDiscipline : LEvent → Bool
  | (Event.internalAppend _, tag) => tag == some 0
  | (Event.scannedIncr, tag) => tag == some 1
  | (Event.foundIncr, tag) => tag == some 1
  | (Event.screenshotIncr, tag) =>
      match tag with
      | some k => decide (2 ≤ k)
      | none => false
  | (_, tag) => tag == none

/-! ## `thc_livecheck.py`: `main` prologue (source lines 205-215) -/

/-- The start of `main`: a missing input file exits with status `1` before
any work begins; an input whose stripped lines are all empty exits with
status `0`; otherwise the list of stripped nonblank lines is the work to
run.  `Except.error c` models `sys.exit(c)`. -/
def mainStart (inputExists : Bool) (lines : List String) : Except Nat (List String) :=
  if !inputExists then Except.error 1
  else
    let subdomains := (lines.map pyStrip).filter (· ≠ "")
    if subdomains.length = 0 then Except.error 0
    else Except.ok subdomains

/-! ## `thc_recon.py`: ANSI stripping and response parsing (source lines 36-79)

The three `re.sub` patterns of `aggressive_strip_ansi` are embedded as
left-to-right scanners.  Each pattern's character classes are pairwise
disjoint, so the regex engine's greedy matching coincides with maximal-munch
scanning and no backtracking arises.  The scanners take a fuel argument for
structural termination; fuel `length + 1` never runs out because every step
consumes at least one character of the input. -/

/-- Character class `[0-?]` (parameter bytes `0x30`-`0x3F`). -/
def inParams (c : Char) : Bool := 0x30 ≤ c.toNat && c.toNat ≤ 0x3F

/-- Character class of intermediate bytes `0x20`-`0x2F` (space through slash). -/
def inInterm (c : Char) : Bool := 0x20 ≤ c.toNat && c.toNat ≤ 0x2F

/-- Character class `[@-~]` (final bytes `0x40`-`0x7E`). -/
def inFinal (c : Char) : Bool := 0x40 ≤ c.toNat && c.toNat ≤ 0x7E

/-- Character class `[@-Z\\-_]` of the second pattern (`0x40`-`0x5A` and
`0x5C`-`0x5F`). -/
def inFe (c : Char) : Bool :=
  (0x40 ≤ c.toNat && c.toNat ≤ 0x5A) || (0x5C ≤ c.toNat && c.toNat ≤ 0x5F)

/-- Length of a match of the common tail of the first two patterns (params,
then intermediates, then one final byte) at the front of `l`, if any. -/
def csiTailLen (l : List Char) : Option Nat :=
  let p := (l.takeWhile inParams).length
  let rest1 := l.drop p
  let i := (rest1.takeWhile inInterm).length
  match (rest1.drop i).head? with
  | some c => if inFinal c then some (p + i + 1) else none
  | none => none

/-- Scanner for the first substitution (CSI sequences: escape, open bracket,
params, intermediates, one final byte). -/
def sub1Fuel : Nat → List Char → List Char
  | 0, l => l
  | _ + 1, [] => []
  | n + 1, '\x1b' :: '[' :: rest =>
      (match csiTailLen rest with
       | some k => sub1Fuel n (rest.drop k)
       | none => '\x1b' :: sub1Fuel n ('[' :: rest))
  | n + 1, c :: rest => c :: sub1Fuel n rest

/-- Scanner for the second substitution (escape, one Fe byte, then the same
tail as the first pattern). -/
def sub2Fuel : Nat → List Char → List Char
  | 0, l => l
  | _ + 1, [] => []
  | n + 1, '\x1b' :: c :: rest =>
      (if inFe c then
        match csiTailLen rest with
        | some k => sub2Fuel n (rest.drop k)
        | none => '\x1b' :: sub2Fuel n (c :: rest)
       else '\x1b' :: sub2Fuel n (c :: rest))
  | n + 1, c :: rest => c :: sub2Fuel n rest

/-- Scanner for the third substitution (escape, open paren, one of A, B,
0, 1, 2). -/
def sub3Fuel : Nat → List Char → List Char
  | 0, l => l
  | _ + 1, [] => []
  | n + 1, '\x1b' :: '(' :: c :: rest =>
      (if c = 'A' || c = 'B' || ('0' ≤ c && c ≤ '2') then sub3Fuel n rest
       else '\x1b' :: sub3Fuel n ('(' :: c :: rest))
  | n + 1, c :: rest => c :: sub3Fuel n rest

/-- Function `aggressive_strip_ansi` (source lines 36-42): `None` for a falsy input,
otherwise the three substitutions followed by `.strip()`. -/
def aggressive_strip_ansi (s : String) : Option String :=
  if s = "" then none
  else
    let l1 := sub1Fuel (s.data.length + 1) s.data
    let l2 := sub2Fuel (l1.length + 1) l1
    let l3 := sub3Fuel (l2.length + 1) l2
    some (String.mk (pyStripList l3))

/-- Python `str.splitlines()` line-break characters (ASCII fragment plus
NEL and the Unicode line/paragraph separators); `\r\n` counts as one
break. -/
def isLineBreak (c : Char) : Bool :=
  c = '\n' || c = Char.ofNat 11 || c = Char.ofNat 12 || c = Char.ofNat 0x1C ||
  c = Char.ofNat 0x1D || c = Char.ofNat 0x1E || c = Char.ofNat 0x85 ||
  c = Char.ofNat 0x2028 || c = Char.ofNat 0x2029

/-- Worker for `splitlines`: `cur` is the current line, reversed. -/
def splitlinesAux : List Char → List Char → List (List Char)
  | cur, [] => if cur.isEmpty then [] else [cur.reverse]
  | cur, '\r' :: '\n' :: rest => cur.reverse :: splitlinesAux [] rest
  | cur, '\r' :: rest => cur.reverse :: splitlinesAux [] rest
  | cur, c :: rest =>
      if isLineBreak c then cur.reverse :: splitlinesAux [] rest
      else splitlinesAux (c :: cur) rest

/-- Python `str.splitlines()`. -/
def pySplitlines (s : String) : List String :=
  (splitlinesAux [] s.data).map String.mk

/-- Python `str.startswith(pre)`. -/
def pyStartsWith (s pre : String) : Bool :=
  pre.data.isPrefixOf s.data

/-- The text after the first `':'`, if the string contains one
(`line.split(":", 1)[1]`). -/
def afterFirstColon : List Char → Option (List Char)
  | [] => none
  | c :: rest => if c = ':' then some rest else afterFirstColon rest

/-- Model of the rate-limit search: the value of the first maximal
digit run directly following the first occurrence of the literal
`"You can make "` that is followed by at least one digit. -/
def rateLimitSearch : List Char → Option Nat
  | [] => none
  | c :: rest =>
      if ("You can make ".data).isPrefixOf (c :: rest) then
        let ds := ((c :: rest).drop ("You can make ".data).length).takeWhile Char.isDigit
        if ds.isEmpty then rateLimitSearch rest else some (digitsToNat ds)
      else rateLimitSearch rest

/-- The accumulator state of `parse_response`'s line loop. -/
structure RState where
  totalEntries : Option Int
  rateLimit : Option Nat
  candidate : Option String
  results : List String
deriving Repr, DecidableEq

/-- The initial accumulator of `parse_response`. -/
def rInit : RState := ⟨none, none, none, []⟩

/-- One iteration of the `for raw_line in text.splitlines()` loop of
`parse_response` (source lines 50-73).  The branch conditions test the
ANSI-stripped line; the bare `except` around the `;;Entries:` parse keeps
the previous value on any failure; in the final branch `raw_line` is
nonempty (otherwise `aggressive_strip_ansi` would have returned `None` and
the line been skipped), so `aggressive_strip_ansi(raw_line).strip()` cannot
fault. -/
def stepLine (st : RState) (raw : String) : RState :=
  match aggressive_strip_ansi raw with
  | none => st
  | some line =>
    if line = "" then st
    else if pyStartsWith line ";;Entries:" then
      match pySplitOn '/' line.data with
      | _ :: p1 :: _ =>
          (match pySplitWs p1 with
           | [] => st                                  -- IndexError, caught
           | w :: _ =>
             match pyInt? (String.mk w) with
             | none => st                              -- ValueError, caught
             | some n => { st with totalEntries := some n })
      | _ => st
    else if pyStartsWith line ";;Rate Limit:" then
      match rateLimitSearch line.data with
      | some n => { st with rateLimit := some n }
      | none => st
    else if pyStartsWith line ";;Next Page:" then
      let cand := match afterFirstColon line.data with
        | some r => String.mk r
        | none => line
      { st with candidate := aggressive_strip_ansi cand }
    else if pyStartsWith line ";;" then st
    else
      let clean := match aggressive_strip_ansi raw with
        | some s2 => pyStrip s2
        | none => ""
      if clean = "" then st else { st with results := st.results ++ [clean] }

/-- The final next-page filter of `parse_response` (source lines 75-77): the
candidate is kept only when truthy and starting with
`"https://ip.thc.org/"`. -/
def finalNextPage (candidate : Option String) : Option String :=
  match candidate with
  | some c => if c ≠ "" && pyStartsWith c "https://ip.thc.org/" then some c else none
  | none => none

/-- The value `parse_response` returns. -/
structure ParseResult where
  totalEntries : Option Int
  rateLimit : Option Nat
  nextPage : Option String
  results : List String
deriving Repr, DecidableEq

/-- Function `parse_response` from `thc_recon.py` (source lines 44-79). -/
def parse_response (text : String) : ParseResult :=
  let st := (pySplitlines text).foldl stepLine rInit
  ⟨st.totalEntries, st.rateLimit, finalNextPage st.candidate, st.results⟩

/-! ## Claims -/

/-- C2 counterexample: the classifier has no arity check, so the malformed
two-field string `"10.1"` — which the claim requires to classify `false` —
classifies `true`. -/
theorem c2_counterexample :
    is_private_ip "10.1" = true ∧ isPrivateIpClaim "10.1" = false := by
  decide

/-- C2 (amended): `is_private_ip` returns `true` iff every dot-separated
field of the input parses as a Python integer and the leading fields fall in
a private range: first field `10`; or first field `172` and a second field
in `16..31`; or first field `192` and a second field `168`.  Neither the
arity (beyond the fields inspected) nor the `0..255` octet range is
validated, and the classifier never raises. -/
theorem c2_amended (s : String) :
    is_private_ip s = true ↔
      ∃ o0 rest, mapIntAll (pySplitOn '.' s.data) = some (o0 :: rest) ∧
        (o0 = 10 ∨
         (o0 = 172 ∧ ∃ o1 t, rest = o1 :: t ∧ 16 ≤ o1 ∧ o1 ≤ 31) ∨
         (o0 = 192 ∧ ∃ o1 t, rest = o1 :: t ∧ o1 = 168)) := by
  unfold is_private_ip
  cases h : mapIntAll (pySplitOn '.' s.data) with
  | none => simp
  | some octets =>
    cases octets with
    | nil => simp
    | cons o0 rest =>
      dsimp only
      constructor
      · intro hv
        refine ⟨o0, rest, rfl, ?_⟩
        by_cases h10 : o0 = 10
        · exact Or.inl h10
        · rw [if_neg h10] at hv
          by_cases h172 : o0 = 172
          · rw [if_pos h172] at hv
            cases rest with
            | nil => exact absurd hv (by simp)
            | cons o1 t =>
              exact Or.inr (Or.inl ⟨h172, o1, t, rfl, of_decide_eq_true hv⟩)
          · rw [if_neg h172] at hv
            by_cases h192 : o0 = 192
            · rw [if_pos h192] at hv
              cases rest with
              | nil => exact absurd hv (by simp)
              | cons o1 t =>
                exact Or.inr (Or.inr ⟨h192, o1, t, rfl, of_decide_eq_true hv⟩)
            · rw [if_neg h192] at hv
              exact absurd hv (by simp)
      · rintro ⟨o0x, restx, heq, hcond⟩
        have heq2 : o0 = o0x ∧ rest = restx := by
          have := Option.some.inj heq
          exact ⟨(List.cons.inj this).1, (List.cons.inj this).2⟩
        obtain ⟨ho, hr⟩ := heq2
        subst ho
        subst hr
        rcases hcond with h10 | ⟨h172, o1, t, ht, hb1, hb2⟩ | ⟨h192, o1, t, ht, h168⟩
        · rw [if_pos h10]
        · subst h172
          subst ht
          rw [if_neg (by decide), if_pos rfl]
          exact decide_eq_true ⟨hb1, hb2⟩
        · subst h192
          subst ht
          rw [if_neg (by decide), if_neg (by decide), if_pos rfl]
          exact decide_eq_true h168

/-- C5 counterexample: for a response carrying an `X-Powered-By` header with
an empty value, the code's truthiness test skips the suffix, while the claim
— append `" (value)"` whenever the header is present — demands `"nginx ()"`. -/
theorem c5_counterexample :
    fingerprint (some "nginx") (some "") = "nginx" ∧
      fingerprintClaim (some "nginx") (some "") = "nginx ()" ∧
      fingerprint (some "nginx") (some "") ≠ fingerprintClaim (some "nginx") (some "") := by
  decide

/-- C5 (amended): the fingerprint is the `Server` header value (`"Unknown"`
when absent), with `" (value)"` appended exactly when an `X-Powered-By`
header is present with a nonempty value. -/
theorem c5_amended (server? poweredBy? : Option String) :
    fingerprint server? poweredBy? = fingerprintAmended server? poweredBy? := by
  cases poweredBy? with
  | none => simp [fingerprint, fingerprintAmended]
  | some v =>
    by_cases hv : v = "" <;> simp [fingerprint, fingerprintAmended, hv]

/-- C9: a missing input file exits with status 1 before any work; an input
whose stripped lines are all blank exits with status 0; and these are the
only error exits `mainStart` produces. -/
theorem c9_exit_behavior :
    (∀ lines, mainStart false lines = Except.error 1) ∧
    (∀ lines, (lines.map pyStrip).filter (· ≠ "") = [] →
        mainStart true lines = Except.error 0) ∧
    (∀ (inputExists : Bool) lines c, mainStart inputExists lines = Except.error c →
        (inputExists = false ∧ c = 1) ∨
        (inputExists = true ∧ c = 0 ∧ (lines.map pyStrip).filter (· ≠ "") = [])) := by
  refine ⟨fun lines => rfl, ?_, ?_⟩
  · intro lines h
    have hf : ((lines.map pyStrip).filter (· ≠ "")).length = 0 := by
      rw [h]
      rfl
    show (if ((lines.map pyStrip).filter (· ≠ "")).length = 0
          then (Except.error 0 : Except Nat (List String))
          else Except.ok ((lines.map pyStrip).filter (· ≠ ""))) = Except.error 0
    rw [if_pos hf]
  · intro inputExists lines c h
    cases inputExists with
    | false =>
      have h1 : (Except.error 1 : Except Nat (List String)) = Except.error c := h
      exact Or.inl ⟨rfl, (Except.error.inj h1).symm⟩
    | true =>
      right
      have h2 : (if ((lines.map pyStrip).filter (· ≠ "")).length = 0
                 then (Except.error 0 : Except Nat (List String))
                 else Except.ok ((lines.map pyStrip).filter (· ≠ ""))) = Except.error c := h
      by_cases hf : ((lines.map pyStrip).filter (· ≠ "")).length = 0
      · rw [if_pos hf] at h2
        exact ⟨rfl, (Except.error.inj h2).symm, List.length_eq_zero.mp hf⟩
      · rw [if_neg hf] at h2
        exact absurd h2 (by simp)

/-- C9 witness: concrete instances of the three exit behaviors. -/
theorem c9_exit_behavior_witness :
    mainStart false ["x"] = Except.error 1 ∧ mainStart true ["", "  "] = Except.error 0 :=
  ⟨c9_exit_behavior.1 ["x"], c9_exit_behavior.2.1 ["", "  "] (by decide)⟩

/-- Helper for C10: whatever candidate the line loop produced, the final
filter of `parse_response` only lets through URLs on the `ip.thc.org`
host. -/
theorem finalNextPage_startsWith (cand : Option String) (url : String)
    (h : finalNextPage cand = some url) :
    pyStartsWith url "https://ip.thc.org/" = true := by
  cases cand with
  | none => exact absurd h (by simp [finalNextPage])
  | some c =>
    have h2 : (if (decide (c ≠ "") && pyStartsWith c "https://ip.thc.org/") = true
               then some c else none) = some url := h
    by_cases hcond : (decide (c ≠ "") && pyStartsWith c "https://ip.thc.org/") = true
    · rw [if_pos hcond] at h2
      cases Option.some.inj h2
      exact ((Bool.and_eq_true _ _).mp hcond).2
    · rw [if_neg hcond] at h2
      exact absurd h2 (by simp)

/-- C10: the next-page value returned by `parse_response` is either `none`
or a URL starting with `"https://ip.thc.org/"`; a next-page line whose URL
has any other prefix is filtered to `none`, so pagination never follows a
URL outside that host. -/
theorem c10_next_page_prefix :
    (∀ text url, (parse_response text).nextPage = some url →
        pyStartsWith url "https://ip.thc.org/" = true) ∧
    (parse_response ";;Next Page: http://evil.com/x").nextPage = none := by
  constructor
  · intro text url h
    exact finalNextPage_startsWith _ url h
  · decide

/-- C10 witness: a well-formed next-page line is returned and passes the
prefix test. -/
theorem c10_next_page_prefix_witness :
    pyStartsWith "https://ip.thc.org/a" "https://ip.thc.org/" = true :=
  c10_next_page_prefix.1 ";;Next Page: https://ip.thc.org/a" "https://ip.thc.org/a" (by decide)

/-! ### Per-chunk trace computations -/

/-- Count `scannedCount` distributes over concatenation. -/
theorem scannedCount_append (a b : List LEvent) :
    scannedCount (a ++ b) = scannedCount a + scannedCount b := by
  simp [scannedCount, List.countP_append]

/-- Observation `probeSeq` distributes over concatenation. -/
theorem probeSeq_append (a b : List LEvent) :
    probeSeq (a ++ b) = probeSeq a ++ probeSeq b := by
  simp [probeSeq, List.filterMap_append]

/-- Observation `screenshotAttemptsOf` distributes over concatenation. -/
theorem screenshotAttemptsOf_append (a b : List LEvent) :
    screenshotAttemptsOf (a ++ b) = screenshotAttemptsOf a ++ screenshotAttemptsOf b := by
  simp [screenshotAttemptsOf, List.filterMap_append]

/-- A fetch-phase trace contains no scanned-counter increment. -/
theorem scannedCount_fetchPhase (env : WorkerEnv) (t f s : Bool) (host : String) (p : Nat) :
    scannedCount (fetchPhase env t f s host p) = 0 := by
  unfold fetchPhase take_screenshot scannedCount
  cases env.fetch host p <;> cases t <;> cases f <;> cases s <;>
    cases env.captureOk host p <;>
      simp [List.countP_append, List.countP_cons]

/-- The whole fetch loop contains no scanned-counter increment. -/
theorem scannedCount_fetchFlatten (env : WorkerEnv) (t f s : Bool) (host : String)
    (ports : List Nat) :
    scannedCount ((ports.map (fetchPhase env t f s host)).flatten) = 0 := by
  induction ports with
  | nil => rfl
  | cons p ps ih =>
    simp only [List.map_cons, List.flatten_cons]
    rw [scannedCount_append, scannedCount_fetchPhase, ih]

/-- A fetch-phase trace contains no probe event. -/
theorem probeSeq_fetchPhase (env : WorkerEnv) (t f s : Bool) (host : String) (p : Nat) :
    probeSeq (fetchPhase env t f s host p) = [] := by
  unfold fetchPhase take_screenshot probeSeq
  cases env.fetch host p <;> cases t <;> cases f <;> cases s <;>
    cases env.captureOk host p <;>
      simp [List.filterMap_append, List.filterMap_cons]

/-- The whole fetch loop contains no probe event. -/
theorem probeSeq_fetchFlatten (env : WorkerEnv) (t f s : Bool) (host : String)
    (ports : List Nat) :
    probeSeq ((ports.map (fetchPhase env t f s host)).flatten) = [] := by
  induction ports with
  | nil => rfl
  | cons p ps ih =>
    simp only [List.map_cons, List.flatten_cons]
    rw [probeSeq_append, probeSeq_fetchPhase, ih]
    rfl

/-- The classifier chunk of the per-host trace contains no probe event. -/
theorem probeSeq_internal_chunk (c : Prop) [Decidable c] (x : String) :
    probeSeq (if c then [(Event.internalAppend x, some 0)] else []) = [] := by
  split <;> rfl

/-- A live-hosts append contributes no probe event. -/
theorem probeSeq_live_chunk (x : String) (l : List LEvent) :
    probeSeq ((Event.liveAppend x, none) :: l) = probeSeq l := by
  simp [probeSeq, List.filterMap_cons]

/-- A live-hosts append contributes no scanned-counter increment. -/
theorem scannedCount_live_chunk (x : String) (l : List LEvent) :
    scannedCount ((Event.liveAppend x, none) :: l) = scannedCount l := by
  simp [scannedCount, List.countP_cons]

/-- The probe chunk of the per-host trace records exactly the fixed port
list, in order. -/
theorem probeSeq_probes (b : Nat → Bool) :
    probeSeq (WEB_PORTS.map fun p => (Event.probe p (b p), none)) = WEB_PORTS := rfl

/-- C6: for a host that resolves, the probe loop visits exactly the fixed
port list in its order (each port exactly once, since the list has no
duplicates), and the open-port set used by all later output is sorted
ascending with no duplicates. -/
theorem c6_probe_order_and_sorted_ports (env : WorkerEnv)
    (titlesOn fpOn screenshotsOn : Bool) (host ip : String)
    (hres : env.resolve host = some ip) :
    probeSeq (processHost env titlesOn fpOn screenshotsOn host) = WEB_PORTS ∧
    WEB_PORTS.Nodup ∧
    (openPortsOf env host).Sorted (· ≤ ·) ∧
    (openPortsOf env host).Nodup := by
  refine ⟨?_, by decide, List.sorted_insertionSort _ _, ?_⟩
  · unfold processHost
    rw [hres]
    by_cases hraw : rawOpenPorts env host ≠ []
    · rw [if_pos hraw, if_pos hraw, probeSeq_append, probeSeq_append, probeSeq_append,
        probeSeq_internal_chunk, probeSeq_probes, probeSeq_live_chunk,
        probeSeq_fetchFlatten]
      rfl
    · rw [if_neg hraw, if_neg hraw, probeSeq_append, probeSeq_append, probeSeq_append,
        probeSeq_internal_chunk, probeSeq_probes]
      rfl
  · have h1 : (rawOpenPorts env host).Nodup :=
      List.Nodup.filter _ (by decide)
    exact ((List.perm_insertionSort (· ≤ ·) (rawOpenPorts env host)).nodup_iff).mpr h1

/-- C6 witness: an environment in which the host resolves and every port is
open. -/
theorem c6_probe_order_and_sorted_ports_witness :
    probeSeq (processHost
      ⟨fun _ => some "1.2.3.4", fun _ _ => true, fun _ _ => none, fun _ _ => false⟩
      false false false "h") = WEB_PORTS :=
  (c6_probe_order_and_sorted_ports
    ⟨fun _ => some "1.2.3.4", fun _ _ => true, fun _ _ => none, fun _ _ => false⟩
    false false false "h" "1.2.3.4" rfl).1

/-- The scanned-counter chunk lemmas: the classifier chunk and the fetch
chunk contribute no increment, the counter chunk contributes exactly one. -/
theorem scannedCount_internal_chunk (c : Prop) [Decidable c] (x : String) :
    scannedCount (if c then [(Event.internalAppend x, some 0)] else []) = 0 := by
  split <;> rfl

/-- The probe chunk contributes no scanned-counter increment. -/
theorem scannedCount_probes (b : Nat → Bool) :
    scannedCount (WEB_PORTS.map fun p => (Event.probe p (b p), none)) = 0 := rfl

/-- Each processed host contributes exactly one scanned-counter increment,
whether or not it resolves and whatever its open ports. -/
theorem scannedCount_processHost (env : WorkerEnv) (t f s : Bool) (host : String) :
    scannedCount (processHost env t f s host) = 1 := by
  unfold processHost
  cases hres : env.resolve host with
  | none => rfl
  | some ip =>
    dsimp only
    by_cases hraw : rawOpenPorts env host ≠ []
    · rw [if_pos hraw, if_pos hraw, scannedCount_append, scannedCount_append,
        scannedCount_append, scannedCount_internal_chunk, scannedCount_probes,
        scannedCount_live_chunk, scannedCount_fetchFlatten]
      rfl
    · rw [if_neg hraw, if_neg hraw, scannedCount_append, scannedCount_append,
        scannedCount_append, scannedCount_internal_chunk, scannedCount_probes]
      rfl

/-- C7: the scanned counter is touched only by unit increments: each
processed host contributes exactly one increment (hosts whose resolution
fails included), a completed run over `K` submitted targets accumulates
exactly `K`, and along any trace the running count never decreases. -/
theorem c7_scanned_counter (env : WorkerEnv) (titlesOn fpOn screenshotsOn : Bool) :
    (∀ host, scannedCount (processHost env titlesOn fpOn screenshotsOn host) = 1) ∧
    (∀ hosts : List String,
        scannedCount (runTrace env titlesOn fpOn screenshotsOn hosts) = hosts.length) ∧
    (∀ (hosts : List String) (n : Nat),
        scannedCount ((runTrace env titlesOn fpOn screenshotsOn hosts).take n) ≤
        scannedCount ((runTrace env titlesOn fpOn screenshotsOn hosts).take (n + 1))) := by
  refine ⟨fun host => scannedCount_processHost env titlesOn fpOn screenshotsOn host, ?_, ?_⟩
  · intro hosts
    induction hosts with
    | nil => rfl
    | cons h hs ih =>
      unfold runTrace
      simp only [List.map_cons, List.flatten_cons]
      rw [scannedCount_append, scannedCount_processHost]
      unfold runTrace at ih
      rw [ih, List.length_cons, Nat.add_comm]
  · intro hosts n
    have hsub : List.Sublist
        ((runTrace env titlesOn fpOn screenshotsOn hosts).take n)
        ((runTrace env titlesOn fpOn screenshotsOn hosts).take (n + 1)) := by
      have h1 := List.take_take n (n + 1) (runTrace env titlesOn fpOn screenshotsOn hosts)
      rw [Nat.min_eq_left (Nat.le_succ n)] at h1
      exact h1 ▸ List.take_sublist n ((runTrace env titlesOn fpOn screenshotsOn hosts).take (n + 1))
    exact hsub.countP_le _

/-- C8: a host whose open-port set is empty contributes exactly the scanned
update: no found-counter increment, no live-hosts line, no title line, no
fingerprint line, no screenshot attempt and no screenshot-counter
increment. -/
theorem c8_empty_ports_no_output (env : WorkerEnv)
    (titlesOn fpOn screenshotsOn : Bool) (host : String)
    (hempty : rawOpenPorts env host = []) :
    scannedCount (processHost env titlesOn fpOn screenshotsOn host) = 1 ∧
    foundCount (processHost env titlesOn fpOn screenshotsOn host) = 0 ∧
    liveLines (processHost env titlesOn fpOn screenshotsOn host) = [] ∧
    titleLines (processHost env titlesOn fpOn screenshotsOn host) = [] ∧
    fingerprintLines (processHost env titlesOn fpOn screenshotsOn host) = [] ∧
    screenshotAttemptsOf (processHost env titlesOn fpOn screenshotsOn host) = [] ∧
    screenshotIncrCount (processHost env titlesOn fpOn screenshotsOn host) = 0 := by
  unfold processHost
  cases hres : env.resolve host with
  | none => exact ⟨rfl, rfl, rfl, rfl, rfl, rfl, rfl⟩
  | some ip =>
    dsimp only
    rw [hempty]
    have hne : ¬(([] : List Nat) ≠ []) := fun h => h rfl
    rw [if_neg hne, if_neg hne]
    refine ⟨?_, ?_, ?_, ?_, ?_, ?_, ?_⟩ <;> split_ifs <;> rfl

/-- C8 witness: a resolving host with every port closed. -/
theorem c8_empty_ports_no_output_witness :
    rawOpenPorts ⟨fun _ => some "9.9.9.9", fun _ _ => false, fun _ _ => none,
      fun _ _ => false⟩ "h" = [] ∧
    liveLines (processHost
      ⟨fun _ => some "9.9.9.9", fun _ _ => false, fun _ _ => none, fun _ _ => false⟩
      true true true "h") = [] :=
  ⟨by decide,
   (c8_empty_ports_no_output
     ⟨fun _ => some "9.9.9.9", fun _ _ => false, fun _ _ => none, fun _ _ => false⟩
     true true true "h" (by decide)).2.2.1⟩

/-- The environment of the C1 counterexample: the host resolves, port 80 is
open, and the HTTP fetch raises for every port. -/
def c1Env : WorkerEnv :=
  ⟨fun _ => some "1.2.3.4", fun _ p => p == 80, fun _ _ => none, fun _ _ => false⟩

/-- C1 counterexample: with screenshots requested, port 80 open, the
cancellation flag never set and the fetch for port 80 raising, the claim
demands a screenshot attempt for port 80, but the worker attempts none: the
`take_screenshot` call sits inside the `try:` block after `requests.get`,
so a fetch failure skips it. -/
theorem c1_counterexample :
    80 ∈ openPortsOf c1Env "h" ∧
    screenshotAttemptsOf (processHost c1Env false false true "h") = [] := by
  exact ⟨by decide, rfl⟩

/-- A live-hosts append contributes no screenshot attempt. -/
theorem screenshotAttemptsOf_live_chunk (x : String) (l : List LEvent) :
    screenshotAttemptsOf ((Event.liveAppend x, none) :: l) = screenshotAttemptsOf l := by
  simp [screenshotAttemptsOf, List.filterMap_cons]

/-- The classifier chunk contributes no screenshot attempt. -/
theorem screenshotAttemptsOf_internal_chunk (c : Prop) [Decidable c] (x : String) :
    screenshotAttemptsOf (if c then [(Event.internalAppend x, some 0)] else []) = [] := by
  split <;> rfl

/-- The probe chunk contributes no screenshot attempt. -/
theorem screenshotAttemptsOf_probes (b : Nat → Bool) :
    screenshotAttemptsOf (WEB_PORTS.map fun p => (Event.probe p (b p), none)) = [] := rfl

/-- With screenshots requested, one fetch-phase trace attempts a capture for
its port exactly when the fetch did not raise. -/
theorem screenshotAttemptsOf_fetchPhase_true (env : WorkerEnv) (t f : Bool)
    (host : String) (p : Nat) :
    screenshotAttemptsOf (fetchPhase env t f true host p) =
      if (env.fetch host p).isSome then [p] else [] := by
  unfold fetchPhase take_screenshot screenshotAttemptsOf
  cases env.fetch host p <;> cases t <;> cases f <;> cases env.captureOk host p <;>
    simp [List.filterMap_append, List.filterMap_cons]

/-- With screenshots not requested, a fetch-phase trace attempts no
capture. -/
theorem screenshotAttemptsOf_fetchPhase_false (env : WorkerEnv) (t f : Bool)
    (host : String) (p : Nat) :
    screenshotAttemptsOf (fetchPhase env t f false host p) = [] := by
  unfold fetchPhase take_screenshot screenshotAttemptsOf
  cases env.fetch host p <;> cases t <;> cases f <;>
    simp [List.filterMap_append, List.filterMap_cons]

/-- With screenshots requested, the fetch loop attempts a capture exactly
for the open ports whose fetch did not raise. -/
theorem screenshotAttemptsOf_fetchFlatten_true (env : WorkerEnv) (t f : Bool)
    (host : String) (ports : List Nat) :
    screenshotAttemptsOf ((ports.map (fetchPhase env t f true host)).flatten) =
      ports.filter (fun p => (env.fetch host p).isSome) := by
  induction ports with
  | nil => rfl
  | cons p ps ih =>
    simp only [List.map_cons, List.flatten_cons, List.filter_cons]
    rw [screenshotAttemptsOf_append, screenshotAttemptsOf_fetchPhase_true, ih]
    by_cases hf : (env.fetch host p).isSome = true <;> simp [hf]

/-- With screenshots not requested, the fetch loop attempts no capture. -/
theorem screenshotAttemptsOf_fetchFlatten_false (env : WorkerEnv) (t f : Bool)
    (host : String) (ports : List Nat) :
    screenshotAttemptsOf ((ports.map (fetchPhase env t f false host)).flatten) = [] := by
  induction ports with
  | nil => rfl
  | cons p ps ih =>
    simp only [List.map_cons, List.flatten_cons]
    rw [screenshotAttemptsOf_append, screenshotAttemptsOf_fetchPhase_false, ih]
    rfl

/-- C1 (amended): for a host that resolves (and with the cancellation flag
never set), a screenshot capture is attempted for exactly those open ports
whose HTTP fetch completed without raising — when screenshots were
requested — and for no port otherwise.  A port whose fetch raises gets no
attempt, because `take_screenshot` is called inside the `try:` block after
`requests.get`. -/
theorem c1_amended_screenshot_iff_fetch_ok (env : WorkerEnv)
    (titlesOn fpOn screenshotsOn : Bool) (host ip : String)
    (hres : env.resolve host = some ip) :
    screenshotAttemptsOf (processHost env titlesOn fpOn screenshotsOn host) =
      if screenshotsOn then
        (openPortsOf env host).filter (fun p => (env.fetch host p).isSome)
      else [] := by
  unfold processHost
  rw [hres]
  dsimp only
  by_cases hraw : rawOpenPorts env host ≠ []
  · rw [if_pos hraw, if_pos hraw, screenshotAttemptsOf_append,
      screenshotAttemptsOf_append, screenshotAttemptsOf_append,
      screenshotAttemptsOf_internal_chunk, screenshotAttemptsOf_probes,
      screenshotAttemptsOf_live_chunk]
    cases screenshotsOn with
    | true =>
      rw [screenshotAttemptsOf_fetchFlatten_true]
      rfl
    | false =>
      rw [screenshotAttemptsOf_fetchFlatten_false]
      rfl
  · have hraw2 : rawOpenPorts env host = [] := not_ne_iff.mp hraw
    have hop : openPortsOf env host = [] := by
      unfold openPortsOf
      rw [hraw2]
      rfl
    rw [if_neg hraw, if_neg hraw, screenshotAttemptsOf_append,
      screenshotAttemptsOf_append, screenshotAttemptsOf_append,
      screenshotAttemptsOf_internal_chunk, screenshotAttemptsOf_probes, hop]
    cases screenshotsOn <;> rfl

/-- The environment of the C1 witness: ports 80 and 443 open, the fetch
succeeding on 80 and raising on 443. -/
def c1EnvW : WorkerEnv :=
  ⟨fun _ => some "1.2.3.4", fun _ p => p == 80 || p == 443,
   fun _ p => if p == 80 then some ⟨none, none, ""⟩ else none, fun _ _ => false⟩

/-- C1 witness: in `c1EnvW` the amended theorem yields exactly one attempt,
for the open port whose fetch succeeded. -/
theorem c1_amended_screenshot_iff_fetch_ok_witness :
    screenshotAttemptsOf (processHost c1EnvW false false true "h") = [80] :=
  (c1_amended_screenshot_iff_fetch_ok c1EnvW false false true "h" "1.2.3.4" rfl).trans
    (by decide)

/-- The environment of the C3 counterexample: the host resolves to a
private address, port 80 is open, the fetch succeeds and the capture
succeeds, so all seven aggregate fields are mutated for this host. -/
def c3Env : WorkerEnv :=
  ⟨fun _ => some "10.0.0.5", fun _ p => p == 80,
   fun _ _ => some ⟨some "nginx", none, ""⟩, fun _ _ => true⟩

/-- C3 counterexample: the aggregate-state mutations of one host do not sit
inside a single critical section — the live-hosts append (like the title
and fingerprint appends) happens with no lock held at all, while the
counter updates sit in several distinct acquisitions. -/
theorem c3_counterexample :
    ¬ ∃ sec : Nat, ∀ tag ∈ aggLockTags (processHost c3Env true true true "a"),
        tag = some sec := by
  rintro ⟨sec, h⟩
  have hmem : (none : Option Nat) ∈ aggLockTags (processHost c3Env true true true "a") := by
    rw [show aggLockTags (processHost c3Env true true true "a") =
      [some 0, some 1, some 1, none, none, none, some 82] from rfl]
    simp
  exact Option.noConfusion (h none hmem)

/-- One fetch-phase trace obeys the source's lock discipline. -/
theorem lockDiscipline_fetchPhase (env : WorkerEnv) (t f s : Bool)
    (host : String) (p : Nat) :
    (fetchPhase env t f s host p).all lockDiscipline = true := by
  unfold fetchPhase take_screenshot
  cases env.fetch host p <;> cases t <;> cases f <;> cases s <;>
    cases env.captureOk host p <;>
      simp [List.all_append, List.all_cons, lockDiscipline]

/-- The whole fetch loop obeys the source's lock discipline. -/
theorem lockDiscipline_fetchFlatten (env : WorkerEnv) (t f s : Bool)
    (host : String) (ports : List Nat) :
    ((ports.map (fetchPhase env t f s host)).flatten).all lockDiscipline = true := by
  induction ports with
  | nil => rfl
  | cons p ps ih =>
    simp only [List.map_cons, List.flatten_cons, List.all_append]
    rw [lockDiscipline_fetchPhase, ih]
    rfl

/-- C3 (amended): every event of a per-host trace obeys the source's actual
lock discipline: only the internal-host append, the scanned/found counter
updates and the screenshot-counter increments happen under `status_lock` —
in three distinct kinds of acquisitions, not one critical section — while
the live-host, title and fingerprint appends happen with no lock held. -/
theorem c3_amended_lock_discipline (env : WorkerEnv)
    (titlesOn fpOn screenshotsOn : Bool) (host : String) :
    (processHost env titlesOn fpOn screenshotsOn host).all lockDiscipline = true := by
  unfold processHost
  cases hres : env.resolve host with
  | none => rfl
  | some ip =>
    dsimp only
    by_cases hraw : rawOpenPorts env host ≠ []
    · rw [if_pos hraw, if_pos hraw]
      simp only [List.all_append, List.all_cons]
      rw [lockDiscipline_fetchFlatten]
      split <;> rfl
    · rw [if_neg hraw, if_neg hraw]
      simp only [List.all_append, List.all_cons]
      split <;> rfl

/-- C4 counterexample: on the body `"</title><title"` the opening tag is
present but no `">"` follows it, so `find(">") + 1` restarts the scan at
index `0` and the code extracts the empty text before the leading
`"</title>"` — while the claim's algorithm, searching forward from the
`"<title"` occurrence, finds nothing and must answer `"No title"`. -/
theorem c4_counterexample :
    extractTitle "</title><title" = "" ∧
    extractTitleClaim "</title><title" = "No title" ∧
    ("" : String) ≠ "No title" := by
  decide

/-- Dropping whitespace commutes with a map that preserves whitespace-ness. -/
theorem dropWhile_map_pres (f : Char → Char)
    (hf : ∀ c, isPySpace (f c) = isPySpace c) (l : List Char) :
    (l.map f).dropWhile isPySpace = (l.dropWhile isPySpace).map f := by
  induction l with
  | nil => rfl
  | cons c t ih =>
    by_cases h : isPySpace c = true
    · simp only [List.map_cons, List.dropWhile_cons, hf, h, if_pos]
      exact ih
    · simp only [List.map_cons, List.dropWhile_cons, hf, h]
      simp [h]

/-- Stripping commutes with a map that preserves whitespace-ness. -/
theorem stripList_map_pres (f : Char → Char)
    (hf : ∀ c, isPySpace (f c) = isPySpace c) (l : List Char) :
    pyStripList (l.map f) = (pyStripList l).map f := by
  unfold pyStripList
  rw [dropWhile_map_pres f hf, ← List.map_reverse, dropWhile_map_pres f hf,
    ← List.map_reverse]

/-- Replacing newlines by spaces preserves whitespace-ness. -/
theorem isPySpace_replN (c : Char) :
    isPySpace (if c = '\n' then ' ' else c) = isPySpace c := by
  by_cases h : c = '\n'
  · subst h; decide
  · simp [h]

/-- Replacing carriage returns by spaces preserves whitespace-ness. -/
theorem isPySpace_replR (c : Char) :
    isPySpace (if c = '\r' then ' ' else c) = isPySpace c := by
  by_cases h : c = '\r'
  · subst h; decide
  · simp [h]

/-- The code's post-processing order (strip, then replace) and the claim's
(replace, then trim) give the same title text. -/
theorem titleClean_eq_titleCleanClaim (l : List Char) :
    titleClean l = titleCleanClaim l := by
  unfold titleClean titleCleanClaim pyReplace
  rw [stripList_map_pres _ isPySpace_replR, stripList_map_pres _ isPySpace_replN]

/-- C4 (amended): title extraction is as the claim describes except when
`"<title"` occurs with no `">"` after it: then `find` returns `-1`, the
`+ 1` makes the scan position `0`, and the title becomes the cleaned text
from the start of the body up to the first `"</title>"` anywhere in it
(still `"No title"` when there is none).  When `"<title"` is absent, or the
`"</title>"` search from the computed position fails, the title is
`"No title"`; the strip-then-replace order of the code agrees with the
replace-then-trim order of the claim. -/
theorem c4_amended (text : String) : extractTitle text = extractTitleAmended text := by
  unfold extractTitle extractTitleAmended
  cases h1 : firstOccurFrom (text.data.map lowerAscii) ("<title".data) 0 with
  | none => simp [pyFind, h1]
  | some i =>
    simp only [pyFind, h1]
    rw [if_pos (show (i : Int) ≠ -1 from by omega), if_pos (show (i : Int) ≠ -1 from by omega)]
    simp only [Int.toNat_natCast]
    cases h2 : firstOccurFrom text.data (">".data) i with
    | none =>
      simp only [pyFind, h2]
      rw [show ((-1 : Int) + 1) = 0 from rfl]
      simp only [Int.toNat_zero]
      cases h3 : firstOccurFrom text.data ("</title>".data) 0 with
      | none =>
        simp only [pyFind, h3]
        rw [if_neg (show ¬((-1 : Int) ≠ -1) from by omega)]
      | some e =>
        simp only [pyFind, h3]
        rw [if_pos (show (e : Int) ≠ -1 from by omega)]
        simp only [Int.toNat_natCast]
        exact congrArg String.mk (titleClean_eq_titleCleanClaim _)
    | some k =>
      simp only [pyFind, h2]
      rw [show (((k : Int)) + 1).toNat = k + 1 from by omega]
      cases h3 : firstOccurFrom text.data ("</title>".data) (k + 1) with
      | none =>
        simp only [pyFind, h3]
        rw [if_neg (show ¬((-1 : Int) ≠ -1) from by omega)]
      | some e =>
        simp only [pyFind, h3]
        rw [if_pos (show (e : Int) ≠ -1 from by omega)]
        simp only [Int.toNat_natCast]
        exact congrArg String.mk (titleClean_eq_titleCleanClaim _)
